import Mathlib

/-!
Verification development for the fieldmax offline-first synchronization engine.

The repository contains two variants of the engine:

* an IndexedDB-backed variant: `src/static/js/offline-manager.js` (class
  `OfflineManager`, modelled here in namespace `Fieldmax.IDB`) together with
  `src/static/js/service-worker.js` (modelled in namespace `Fieldmax.SW4`,
  cache generation `fieldmax-shop-v4`);
* a localStorage-backed variant: `src/unnamed/part_001`, holding an older
  service worker (namespace `Fieldmax.SW1`, generation `fieldmax-v1`) and a
  localStorage `OfflineManager` (namespace `Fieldmax.LSM`).

Machine integers do not overflow in any modelled code path, so counters are
`Nat`.  IndexedDB object stores are modelled as lists of records with the
store's key semantics made explicit: `getAll` and index cursors return records
in ascending key order, which we express with `List.insertionSort` over the
corresponding key order (keys are unique, so any sort produces the cursor
order).  Each `await` on a durable-storage operation is a suspension point;
where a claim is about intermediate states we expose the per-await state
sequence explicitly (`processOneStates`).
-/

namespace Fieldmax

/-- Operation id as generated by `Date.now() + '-' + randomSuffix`: a pair of
the millisecond timestamp and the random suffix.  The JavaScript id is the
decimal string; for fixed-width timestamps (13 digits from 2001 to 2286)
string comparison of ids coincides with lexicographic comparison of this
pair. -/
abbrev OpId := Nat × Nat

/-- Queued operation record as built by `OfflineManager.queueRequest`
(offline-manager.js lines 170-180). -/
structure QOp where
  idTime : Nat
  idSuffix : Nat
  method : String
  url : String
  data : Option String
  timestamp : Nat
  priority : Nat
  retries : Nat
  maxRetries : Nat
deriving DecidableEq, Repr

/-- The primary key of a queued operation. -/
def QOp.id (r : QOp) : OpId := (r.idTime, r.idSuffix)

/-- Failed-store record: the spread of the queued request plus the terminal
error and failure time (offline-manager.js lines 325-329). -/
structure FailedRec extends QOp where
  error : String
  failedAt : Nat
deriving DecidableEq, Repr

/-- Message types posted from the background agent to clients. -/
inductive MsgType where
  | syncStarted
  | syncCompleted
  | syncFailed
deriving DecidableEq, Repr

/-- Ascending order on operation ids, i.e. on the IndexedDB primary key of a
requests store (string ids compare like these pairs, see `OpId`). -/
def idLe (a b : OpId) : Prop :=
  a.1 < b.1 ∨ (a.1 = b.1 ∧ a.2 ≤ b.2)

instance : DecidableRel idLe := fun a b => by
  unfold idLe; exact inferInstance

namespace IDB

/-- Priority-name table from `getPriorityValue` (offline-manager.js lines
196-201): the object literal `critical:0, high:1, normal:2, low:3`. -/
def priorityTable (p : String) : Option Nat :=
  if p = "critical" then some 0
  else if p = "high" then some 1
  else if p = "normal" then some 2
  else if p = "low" then some 3
  else none

/-- JavaScript `x || d` for `x` a table lookup result: both `undefined` and
`0` are falsy, so they yield the default `d`. -/
def jsOrElse (x : Option Nat) (d : Nat) : Nat :=
  match x with
  | some n => if n = 0 then d else n
  | none => d

/-- Model of `getPriorityValue` (offline-manager.js lines 195-203):
`priorities[priority] || 2`. -/
def getPriorityValue (p : String) : Nat :=
  jsOrElse (priorityTable p) 2

/-- Model of the record construction in `queueRequest` (offline-manager.js
lines 170-180): id from `Date.now()` plus a random suffix, `timestamp` taken
at the same moment, priority through `getPriorityValue`, `retries = 0`,
`maxRetries = 3`. -/
def queueRequest (now suffix : Nat) (method url : String) (data : Option String)
    (priority : String) : QOp :=
  { idTime := now
    idSuffix := suffix
    method := method
    url := url
    data := data
    timestamp := now
    priority := getPriorityValue priority
    retries := 0
    maxRetries := 3 }

/-- Traversal order of an IndexedDB cursor over the `priority` index:
ascending index key (priority), ties broken by ascending primary key. -/
def cursorLe (a b : QOp) : Prop :=
  a.priority < b.priority ∨ (a.priority = b.priority ∧ idLe a.id b.id)

instance : DecidableRel cursorLe := fun a b => by
  unfold cursorLe; exact inferInstance

instance : IsTotal QOp cursorLe := by
  constructor
  intro a b
  simp only [cursorLe, idLe, QOp.id]
  omega

instance : IsTrans QOp cursorLe := by
  constructor
  intro a b c
  simp only [cursorLe, idLe, QOp.id]
  omega

/-- Model of `getQueuedRequests` (offline-manager.js lines 289-308): walk the
cursor of the `priority` index, collecting records while fewer than `limit`
have been taken.  The cursor yields the store's records in `cursorLe` order;
since primary keys are unique this is the unique sorted arrangement, which we
compute with insertion sort.  The JavaScript default for `limit` is 50. -/
def getQueuedRequests (store : List QOp) (limit : Nat) : List QOp :=
  (List.insertionSort cursorLe store).take limit

/-- Client-side state of the IndexedDB variant: the `requests` object store,
the `failed` object store, and the `OfflineManager` flags. -/
structure MgrState where
  requests : List QOp
  failed : List FailedRec
  syncInProgress : Bool
  isOnline : Bool
deriving DecidableEq, Repr

/-- Model of `removeFromQueue` (offline-manager.js lines 310-319):
`store.delete(id)` removes the record with that key. -/
def removeFromQueue (store : List QOp) (i : OpId) : List QOp :=
  store.filter (fun r => decide (r.id ≠ i))

/-- Model of `moveToFailed` (offline-manager.js lines 321-335): add to the
`failed` store the spread of the request plus the error message and
`failedAt` time. -/
def moveToFailed (failed : List FailedRec) (r : QOp) (err : String) (now : Nat) :
    List FailedRec :=
  failed ++ [{ toQOp := r, error := err, failedAt := now }]

/-- Modelled from the spec: `updateRequest` is called by `syncOfflineData`
(offline-manager.js line 254) but its definition is not present under src/.
The spec's Queue Store contract (section 4.1) specifies
`update(operation)` as attempts/priority mutation in place, keyed by the
operation id; we model it as replacing the record whose id matches. -/
def updateRequest (store : List QOp) (r : QOp) : List QOp :=
  store.map (fun x => if x.id = r.id then r else x)

/-- One iteration of the drain loop of `syncOfflineData` (offline-manager.js
lines 238-259) for a snapshot entry `r`.  The network outcome for the
operation is `net r`: `none` for success, `some err` for a failure with
message `err`.  On success the operation is removed; on failure `retries` is
incremented and the operation is either migrated to the failed store (when
`retries` reached `maxRetries`) or written back in place. -/
def processOne (net : QOp → Option String) (now : Nat) (s : MgrState) (r : QOp) :
    MgrState :=
  match net r with
  | none => { s with requests := removeFromQueue s.requests r.id }
  | some err =>
    let r' : QOp := { r with retries := r.retries + 1 }
    if r'.maxRetries ≤ r'.retries then
      { s with
        failed := moveToFailed s.failed r' err now
        requests := removeFromQueue s.requests r.id }
    else
      { s with requests := updateRequest s.requests r' }

/-- Durable states traversed while processing one snapshot entry, one state
per completed storage `await` of the same iteration (offline-manager.js lines
238-259).  In the terminal-failure branch the source first awaits
`moveToFailed` (line 251) and then awaits `removeFromQueue` (line 252), so
the intermediate state after the first of the two awaits is observable. -/
def processOneStates (net : QOp → Option String) (now : Nat) (s : MgrState)
    (r : QOp) : List MgrState :=
  match net r with
  | none => [{ s with requests := removeFromQueue s.requests r.id }]
  | some err =>
    let r' : QOp := { r with retries := r.retries + 1 }
    if r'.maxRetries ≤ r'.retries then
      [{ s with failed := moveToFailed s.failed r' err now },
       { s with
         failed := moveToFailed s.failed r' err now
         requests := removeFromQueue s.requests r.id }]
    else
      [{ s with requests := updateRequest s.requests r' }]

/-- The drain loop of `syncOfflineData`: process the snapshot entries
strictly in list order. -/
def drainPass (net : QOp → Option String) (now : Nat) (s : MgrState) :
    List QOp → MgrState
  | [] => s
  | r :: rest => drainPass net now (processOne net now s r) rest

/-- Coarse trace of a drain pass: the state after each completed iteration. -/
def drainTrace (net : QOp → Option String) (now : Nat) (s : MgrState) :
    List QOp → List MgrState
  | [] => []
  | r :: rest =>
    processOne net now s r :: drainTrace net now (processOne net now s r) rest

/-- Fine trace of a drain pass: every durable state reached at an `await`
inside the loop, in order. -/
def drainFineTrace (net : QOp → Option String) (now : Nat) (s : MgrState) :
    List QOp → List MgrState
  | [] => []
  | r :: rest =>
    processOneStates net now s r ++
      drainFineTrace net now (processOne net now s r) rest

/-- The snapshot a drain pass iterates over: `this.getQueuedRequests()` with
the default limit 50 (offline-manager.js line 234). -/
def syncSnapshot (s : MgrState) : List QOp :=
  getQueuedRequests s.requests 50

/-- Model of `syncOfflineData` (offline-manager.js lines 227-287): guard on
`syncInProgress || !isOnline`, set the flag, snapshot the queue, drain it,
and reset the flag in the `finally` block. -/
def syncOfflineData (net : QOp → Option String) (now : Nat) (s : MgrState) :
    MgrState :=
  if s.syncInProgress || !s.isOnline then s
  else
    let s1 : MgrState := { s with syncInProgress := true }
    let s2 := drainPass net now s1 (syncSnapshot s1)
    { s2 with syncInProgress := false }

/-- Every state observable while a pass started from `s` is in flight: the
state right after the guard set the flag, and each per-await state of the
drain loop. -/
def passMidStates (net : QOp → Option String) (now : Nat) (s : MgrState) :
    List MgrState :=
  let s1 : MgrState := { s with syncInProgress := true }
  s1 :: drainFineTrace net now s1 (syncSnapshot s1)

/-- The operation id `i` is present in the active `requests` store. -/
def inQueueB (s : MgrState) (i : OpId) : Bool :=
  s.requests.any (fun r => decide (r.id = i))

/-- The operation id `i` is present in the `failed` store. -/
def inFailedB (s : MgrState) (i : OpId) : Bool :=
  s.failed.any (fun f => decide (f.toQOp.id = i))

/-- Attempt counter currently recorded for id `i`: the active queue record if
one exists, otherwise the failed-store record, otherwise `none`. -/
def retriesAt (s : MgrState) (i : OpId) : Option Nat :=
  match s.requests.find? (fun r => decide (r.id = i)) with
  | some r => some r.retries
  | none =>
    (s.failed.find? (fun f => decide (f.toQOp.id = i))).map
      (fun f => f.toQOp.retries)

/-- Store well-formedness: ids are unique within each store and the two
stores are disjoint (IndexedDB keys are unique per store; disjointness is the
spec's invariant for records that were enqueued fresh). -/
def WF (s : MgrState) : Prop :=
  (s.requests.map QOp.id).Nodup ∧
  (s.failed.map (fun f => f.toQOp.id)).Nodup ∧
  ∀ f ∈ s.failed, inQueueB s f.toQOp.id = false

/-- Active-queue invariant: every resident operation still has attempts left
(`queueRequest` starts `retries = 0 < 3 = maxRetries`). -/
def QInv (s : MgrState) : Prop :=
  ∀ r ∈ s.requests, r.retries < r.maxRetries

/-- Failed-store invariant: every failed record exhausted its attempt
limit exactly. -/
def FInv (s : MgrState) : Prop :=
  ∀ f ∈ s.failed, f.toQOp.retries = f.toQOp.maxRetries

end IDB

/-- Body of the synthesized offline response built by `handleAPIRequest`
(src/unnamed/part_001 lines 91-98). -/
structure SynthBody where
  error : String
  message : String
  timestamp : Nat
deriving DecidableEq, Repr

/-- Response bodies: either an opaque network payload or the synthesized
offline JSON body. -/
inductive RespBody where
  | net (payload : String)
  | synthesized (b : SynthBody)
deriving DecidableEq, Repr

/-- Response snapshot: status plus body.  `response.ok` is the usual 2xx
test. -/
structure Resp where
  status : Nat
  body : RespBody
deriving DecidableEq, Repr

/-- The `Response.ok` accessor: status in the range 200-299. -/
def Resp.ok (r : Resp) : Bool :=
  decide (200 ≤ r.status) && decide (r.status < 300)

/-- A single named cache: key to response snapshot.  `Cache.put` replaces
the entry stored for the key. -/
abbrev Cache := List (String × Resp)

/-- Model of `cache.put(key, response)`: overwrite the entry stored for
`key`, or store a fresh entry. -/
def cachePut (c : Cache) (k : String) (r : Resp) : Cache :=
  match c with
  | [] => [(k, r)]
  | p :: t => if p.1 = k then (k, r) :: t else p :: cachePut t k r

/-- Model of `cache.match(key)` on a single cache. -/
def cacheMatch (c : Cache) (k : String) : Option Resp :=
  (c.find? (fun p => decide (p.1 = k))).map Prod.snd

/-- The `CacheStorage`: cache generation name to cache contents. -/
abbrev CacheStorage := List (String × Cache)

/-- Lookup of a named cache generation in storage. -/
def csGet (cs : CacheStorage) (name : String) : Option Cache :=
  (cs.find? (fun p => decide (p.1 = name))).map Prod.snd

/-- The named cache generation or an empty cache, as `caches.open` yields. -/
def csGetD (cs : CacheStorage) (name : String) : Cache :=
  (csGet cs name).getD []

/-- Replace (or create) the named cache generation with the given contents:
overwrite the entry carrying the name, or append a fresh one. -/
def csSet (cs : CacheStorage) (name : String) (c : Cache) : CacheStorage :=
  match cs with
  | [] => [(name, c)]
  | p :: rest => if p.1 = name then (name, c) :: rest else p :: csSet rest name c

/-- Model of `caches.open(name)` followed by `cache.put(k, r)`. -/
def csPut (cs : CacheStorage) (name k : String) (r : Resp) : CacheStorage :=
  csSet cs name (cachePut (csGetD cs name) k r)

/-- Model of `caches.match(k)`: search every stored generation in order and
return the first hit. -/
def csMatch (cs : CacheStorage) (k : String) : Option Resp :=
  match cs with
  | [] => none
  | (_, c) :: rest =>
    match cacheMatch c k with
    | some r => some r
    | none => csMatch rest k

/-- Model of `cache.addAll(urls)` given the fetched response for each url:
put every url in order. -/
def cacheAddAll (c : Cache) (urls : List String) (resp : String → Resp) :
    Cache :=
  urls.foldl (fun acc u => cachePut acc u (resp u)) c

namespace SW4

/-- The current cache generation name of src/static/js/service-worker.js
(line 2). -/
def CACHE_NAME : String := "fieldmax-shop-v4"

/-- The fixed manifest of critical resources (service-worker.js lines
7-16). -/
def STATIC_ASSETS : List String :=
  ["/", "/static/css/style.css", "/static/js/offline-manager.js",
   "/static/js/app.js", "/static/images/LOGO.jpg", "/offline/",
   "/api/offline-data/", "/manifest.json"]

/-- Model of the `install` handler (service-worker.js lines 18-29):
`caches.open(CACHE_NAME)` then `cache.addAll(STATIC_ASSETS)`, with `resp u`
the response fetched for asset `u` (activation only happens after a fully
successful install). -/
def installSW (cs : CacheStorage) (resp : String → Resp) : CacheStorage :=
  csSet cs CACHE_NAME (cacheAddAll (csGetD cs CACHE_NAME) STATIC_ASSETS resp)

/-- Model of the `activate` handler (service-worker.js lines 31-46): delete
every stored cache generation whose name differs from `CACHE_NAME`. -/
def activateSW (cs : CacheStorage) : CacheStorage :=
  cs.filter (fun p => decide (p.1 = CACHE_NAME))

/-- Model of the API branch of the `fetch` handler (service-worker.js lines
53-72): network first; on success cache 2xx responses into the current
generation; on network failure answer with `caches.match(request)`, which is
`none` when nothing is cached. -/
def handleAPIFetch (net : Option Resp) (cs : CacheStorage) (k : String) :
    Option Resp × CacheStorage :=
  match net with
  | some response =>
    (some response, if response.ok then csPut cs CACHE_NAME k response else cs)
  | none => (csMatch cs k, cs)

/-- Key order of the service worker's `OfflineQueueDB.requests` store
(keyPath `id`, service-worker.js line 193). -/
def keyLe (a b : QOp) : Prop :=
  idLe a.id b.id

instance : DecidableRel keyLe := fun a b => by
  unfold keyLe; exact inferInstance

instance : IsTotal QOp keyLe := by
  constructor
  intro a b
  simp only [keyLe, idLe, QOp.id]
  omega

instance : IsTrans QOp keyLe := by
  constructor
  intro a b c
  simp only [keyLe, idLe, QOp.id]
  omega

/-- Model of the service worker's `getQueuedRequests` (service-worker.js
lines 202-212): `store.getAll()` returns every record in ascending primary
key order, with no use of any priority index. -/
def getQueuedRequests (store : List QOp) : List QOp :=
  List.insertionSort keyLe store

/-- Model of the service worker's `removeFromQueue` (service-worker.js lines
214-224). -/
def removeFromQueue (store : List QOp) (i : OpId) : List QOp :=
  store.filter (fun r => decide (r.id ≠ i))

/-- Outcome of one run of the service worker's `syncOfflineData`: the
messages posted to clients, the final queue store, and the operations for
which a network call was attempted. -/
structure SyncRun where
  msgs : List MsgType
  store : List QOp
  calls : List QOp
deriving DecidableEq, Repr

/-- Model of the service worker's `syncOfflineData` (service-worker.js lines
119-157): post `SYNC_STARTED`, iterate the queue, remove each operation whose
network call succeeded (failures are kept as-is for retry), then post
`SYNC_COMPLETED`. -/
def syncOfflineData (net : QOp → Option String) (store : List QOp) : SyncRun :=
  let queue := getQueuedRequests store
  let final := queue.foldl
    (fun (acc : List QOp × List QOp) r =>
      match net r with
      | none => (removeFromQueue acc.1 r.id, acc.2 ++ [r])
      | some _ => (acc.1, acc.2 ++ [r]))
    (store, ([] : List QOp))
  { msgs := [MsgType.syncStarted, MsgType.syncCompleted]
    store := final.1
    calls := final.2 }

end SW4

namespace SW1

/-- Cache generation names of the src/unnamed/part_001 service worker (lines
2-4). -/
def CACHE_NAME : String := "fieldmax-v1"

/-- The API response cache of the src/unnamed/part_001 service worker. -/
def API_CACHE : String := "fieldmax-api-v1"

/-- Model of `handleAPIRequest` (src/unnamed/part_001 lines 69-100): network
first, caching 2xx responses; on network failure, serve `caches.match`; on a
cache miss as well, synthesize a 503 JSON response with reason code
`offline` and the current timestamp. -/
def handleAPIRequest (net : Option Resp) (cs : CacheStorage) (k : String)
    (now : Nat) : Resp × CacheStorage :=
  match net with
  | some response =>
    (response, if response.ok then csPut cs API_CACHE k response else cs)
  | none =>
    match csMatch cs k with
    | some c => (c, cs)
    | none =>
      ({ status := 503
         body := RespBody.synthesized
           { error := "offline"
             message := "You are currently offline. This request will be synced when connection is restored."
             timestamp := now } }, cs)

end SW1

namespace LSM

/-- Queued request of the localStorage variant (src/unnamed/part_001 lines
301-308): no priority and no attempt-limit field; the limit 3 is hard-coded
in its `syncOfflineData`. -/
structure LSReq where
  idTime : Nat
  idSuffix : Nat
  method : String
  url : String
  data : Option String
  timestamp : Nat
  retries : Nat
deriving DecidableEq, Repr

/-- State of the localStorage `OfflineManager`: the in-memory queue, the
queue persisted under the `offlineQueue` localStorage key, and the flags. -/
structure LSMgrState where
  offlineQueue : List LSReq
  storedQueue : List LSReq
  syncInProgress : Bool
  isOnline : Bool
deriving DecidableEq, Repr

/-- Model of the localStorage `OfflineManager.syncOfflineData`
(src/unnamed/part_001 lines 321-382): guard on `syncInProgress || !isOnline`,
early return on an empty queue, otherwise empty the queue, process the copy
in order, re-queue failures whose incremented retry count is below 3, persist
and reset the flag.  `net r = true` means the network call for `r`
succeeded. -/
def syncOfflineData (net : LSReq → Bool) (s : LSMgrState) : LSMgrState :=
  if s.syncInProgress || !s.isOnline then s
  else if s.offlineQueue.isEmpty then s
  else
    let queueCopy := s.offlineQueue
    let requeued := queueCopy.foldl
      (fun acc r =>
        if net r then acc
        else if r.retries + 1 < 3 then acc ++ [{ r with retries := r.retries + 1 }]
        else acc)
      ([] : List LSReq)
    { s with
      offlineQueue := requeued
      storedQueue := requeued
      syncInProgress := false }

/-- Model of `handleServiceWorkerMessage` (src/unnamed/part_001 lines
415-430): on `SYNC_COMPLETED` the in-memory queue is replaced by the empty
array and persisted (`saveQueue`); the other message types leave the queue
untouched. -/
def handleServiceWorkerMessage (s : LSMgrState) (m : MsgType) : LSMgrState :=
  match m with
  | MsgType.syncStarted => s
  | MsgType.syncCompleted => { s with offlineQueue := [], storedQueue := [] }
  | MsgType.syncFailed => s

end LSM

/-- The ordering the spec ascribes to `listPending`: primarily ascending
priority ordinal, secondarily ascending enqueue time. -/
def prioTimeLe (a b : QOp) : Prop :=
  a.priority < b.priority ∨ (a.priority = b.priority ∧ a.timestamp ≤ b.timestamp)

instance : DecidableRel prioTimeLe := fun a b => by
  unfold prioTimeLe; exact inferInstance

/-- Ascending enqueue time on queued operations. -/
def timeLe (a b : QOp) : Prop :=
  a.timestamp ≤ b.timestamp

instance : DecidableRel timeLe := fun a b => by
  unfold timeLe; exact inferInstance

/-- An id generated at time `t` records that time: `Date.now()` is both the
id prefix and (as an ISO string) the `timestamp` field. -/
def TimeFaithful (store : List QOp) : Prop :=
  ∀ r ∈ store, r.idTime = r.timestamp

/-- Lookup of key `k` inside the cache generation `name`. -/
def csMatchIn (cs : CacheStorage) (name k : String) : Option Resp :=
  (csGet cs name).bind (fun c => cacheMatch c k)

/-- Attempt counters may only grow or disappear: once gone they stay gone,
and whenever both sides record a value the later one is at least the earlier
one.  This relation is reflexive and transitive, so it chains across
consecutive drain passes. -/
def Rmon (a b : Option Nat) : Prop :=
  (a = none → b = none) ∧ ∀ n m, a = some n → b = some m → n ≤ m

theorem cacheMatch_cachePut_self (c : Cache) (k : String) (r : Resp) :
    cacheMatch (cachePut c k r) k = some r := by
  induction c with
  | nil => simp [cacheMatch, cachePut]
  | cons p t ih =>
    by_cases h : p.1 = k
    · simp [cachePut, cacheMatch, h]
    · simpa [cachePut, cacheMatch, h] using ih

theorem cacheMatch_cachePut_ne (c : Cache) (k u : String) (r : Resp)
    (h : u ≠ k) : cacheMatch (cachePut c k r) u = cacheMatch c u := by
  have hku : ¬k = u := fun hh => h hh.symm
  induction c with
  | nil => simp [cacheMatch, cachePut, hku]
  | cons p t ih =>
    by_cases hp : p.1 = k
    · have hpu : ¬p.1 = u := by rw [hp]; exact hku
      simp [cachePut, cacheMatch, hp, hpu, hku]
    · by_cases hu : p.1 = u
      · simp [cachePut, cacheMatch, hp, hu, h]
      · simpa [cachePut, cacheMatch, hp, hu] using ih

theorem cacheAddAll_not_mem (urls : List String) (c : Cache)
    (resp : String → Resp) (u : String) (h : u ∉ urls) :
    cacheMatch (cacheAddAll c urls resp) u = cacheMatch c u := by
  induction urls generalizing c with
  | nil => rfl
  | cons v rest ih =>
    have hv : u ≠ v := fun hh => h (hh ▸ List.mem_cons_self v rest)
    have hr : u ∉ rest := fun hh => h (List.mem_cons_of_mem v hh)
    calc cacheMatch (cacheAddAll (cachePut c v (resp v)) rest resp) u
        = cacheMatch (cachePut c v (resp v)) u := ih _ hr
      _ = cacheMatch c u := cacheMatch_cachePut_ne _ _ _ _ hv

theorem cacheAddAll_mem (urls : List String) (c : Cache)
    (resp : String → Resp) (u : String) (h : u ∈ urls) :
    cacheMatch (cacheAddAll c urls resp) u = some (resp u) := by
  induction urls generalizing c with
  | nil => cases h
  | cons v rest ih =>
    by_cases hu : u ∈ rest
    · exact ih _ hu
    · have huv : u = v := by
        rcases List.mem_cons.1 h with h1 | h1
        · exact h1
        · exact absurd h1 hu
      subst huv
      show cacheMatch (cacheAddAll (cachePut c u (resp u)) rest resp) u = _
      rw [cacheAddAll_not_mem rest _ resp u hu, cacheMatch_cachePut_self]

theorem csGet_csSet_self (cs : CacheStorage) (name : String) (c : Cache) :
    csGet (csSet cs name c) name = some c := by
  induction cs with
  | nil => simp [csSet, csGet]
  | cons p t ih =>
    by_cases h : p.1 = name
    · simp [csSet, csGet, h]
    · simpa [csSet, csGet, h] using ih

theorem csGet_activateSW_ne (cs : CacheStorage) (n : String)
    (h : n ≠ SW4.CACHE_NAME) : csGet (SW4.activateSW cs) n = none := by
  unfold csGet
  have : (SW4.activateSW cs).find? (fun p => decide (p.1 = n)) = none := by
    rw [List.find?_eq_none]
    intro x hx
    have hk := (List.mem_filter.1 hx).2
    have hkk : x.1 = SW4.CACHE_NAME := by simpa using hk
    have hxn : x.1 ≠ n := by rw [hkk]; exact fun hh => h hh.symm
    simpa using hxn
  rw [this]
  rfl

theorem csGet_activateSW_self (cs : CacheStorage) :
    csGet (SW4.activateSW cs) SW4.CACHE_NAME = csGet cs SW4.CACHE_NAME := by
  induction cs with
  | nil => rfl
  | cons p t ih =>
    by_cases h : p.1 = SW4.CACHE_NAME
    · simp [SW4.activateSW, csGet, h]
    · rw [show SW4.activateSW (p :: t) = SW4.activateSW t by
          simp [SW4.activateSW, h], ih]
      simp [csGet, h]

end Fieldmax

/-- C5 (amended): in the src/unnamed/part_001 variant, a network-first API
request whose network call fails is answered with the cached representation
for that key when one exists (and `cachePut` makes the most recent write the
one returned), and otherwise with a synthesized status-503 response carrying
the machine-readable reason code `offline` and a timestamp; the
src/static/js/service-worker.js variant instead answers with whatever
`caches.match` yields, which is an absent response on a cache miss. -/
theorem C5_api_fallback :
    (∀ (cs : Fieldmax.CacheStorage) (k : String) (now : Nat) (c : Fieldmax.Resp),
      Fieldmax.csMatch cs k = some c →
      (Fieldmax.SW1.handleAPIRequest none cs k now).1 = c) ∧
    (∀ (cs : Fieldmax.CacheStorage) (k : String) (now : Nat),
      Fieldmax.csMatch cs k = none →
      (Fieldmax.SW1.handleAPIRequest none cs k now).1 =
        { status := 503
          body := Fieldmax.RespBody.synthesized
            { error := "offline"
              message := "You are currently offline. This request will be synced when connection is restored."
              timestamp := now } }) ∧
    (∀ (c : Fieldmax.Cache) (k : String) (r : Fieldmax.Resp),
      Fieldmax.cacheMatch (Fieldmax.cachePut c k r) k = some r) ∧
    (∀ (cs : Fieldmax.CacheStorage) (k : String),
      (Fieldmax.SW4.handleAPIFetch none cs k).1 = Fieldmax.csMatch cs k) := by
  refine ⟨?_, ?_, ?_, ?_⟩
  · intro cs k now c h
    unfold Fieldmax.SW1.handleAPIRequest
    rw [h]
  · intro cs k now h
    unfold Fieldmax.SW1.handleAPIRequest
    rw [h]
  · exact Fieldmax.cacheMatch_cachePut_self
  · intro cs k
    rfl

/-- C5 witness: with nothing cached and the network down, the part_001
handler produces the synthesized offline 503. -/
theorem C5_witness :
    (Fieldmax.SW1.handleAPIRequest none [] "/api/products/" 7).1 =
      { status := 503
        body := Fieldmax.RespBody.synthesized
          { error := "offline"
            message := "You are currently offline. This request will be synced when connection is restored."
            timestamp := 7 } } :=
  C5_api_fallback.2.1 [] "/api/products/" 7 rfl

/-- C5 counterexample to the claim as stated: in the
src/static/js/service-worker.js variant, when the network call fails and
nothing is cached, the API handler resolves to an absent response rather
than a synthesized unavailable response. -/
theorem C5_counterexample :
    (Fieldmax.SW4.handleAPIFetch none [] "/api/products/").1 = none := rfl

/-- C6: after the service worker installs generation `fieldmax-shop-v4`
(populating it with the full static-asset manifest) and its activate handler
sweeps the cache storage, no cache generation other than the current one
remains retrievable, and every manifest key is present in the current
generation with the response fetched for it. -/
theorem C6_generation_swap :
    ∀ (cs : Fieldmax.CacheStorage) (resp : String → Fieldmax.Resp),
      (∀ n, n ≠ Fieldmax.SW4.CACHE_NAME →
        Fieldmax.csGet (Fieldmax.SW4.activateSW (Fieldmax.SW4.installSW cs resp)) n =
          none) ∧
      (∀ u ∈ Fieldmax.SW4.STATIC_ASSETS,
        Fieldmax.csMatchIn (Fieldmax.SW4.activateSW (Fieldmax.SW4.installSW cs resp))
          Fieldmax.SW4.CACHE_NAME u = some (resp u)) := by
  intro cs resp
  constructor
  · intro n hn
    exact Fieldmax.csGet_activateSW_ne _ n hn
  · intro u hu
    unfold Fieldmax.csMatchIn
    rw [Fieldmax.csGet_activateSW_self]
    unfold Fieldmax.SW4.installSW
    rw [Fieldmax.csGet_csSet_self]
    exact Fieldmax.cacheAddAll_mem _ _ resp u hu

/-- C6 witness: starting from a storage holding only a stale generation
named `old`, after install plus activate the stale generation is gone and
the manifest entry `/` is served from the current generation. -/
theorem C6_witness :
    Fieldmax.csGet
        (Fieldmax.SW4.activateSW
          (Fieldmax.SW4.installSW
            [("old", [("/", { status := 200, body := Fieldmax.RespBody.net "x" })])]
            (fun _ => { status := 200, body := Fieldmax.RespBody.net "y" })))
        "old" = none ∧
    Fieldmax.csMatchIn
        (Fieldmax.SW4.activateSW
          (Fieldmax.SW4.installSW
            [("old", [("/", { status := 200, body := Fieldmax.RespBody.net "x" })])]
            (fun _ => { status := 200, body := Fieldmax.RespBody.net "y" })))
        Fieldmax.SW4.CACHE_NAME "/" =
      some { status := 200, body := Fieldmax.RespBody.net "y" } :=
  ⟨(C6_generation_swap
      [("old", [("/", { status := 200, body := Fieldmax.RespBody.net "x" })])]
      (fun _ => { status := 200, body := Fieldmax.RespBody.net "y" })).1 "old"
      (by decide),
   (C6_generation_swap
      [("old", [("/", { status := 200, body := Fieldmax.RespBody.net "x" })])]
      (fun _ => { status := 200, body := Fieldmax.RespBody.net "y" })).2 "/"
      (by decide)⟩

namespace Fieldmax

namespace IDB

theorem processOne_syncInProgress (net : QOp → Option String) (now : Nat)
    (s : MgrState) (r : QOp) :
    (processOne net now s r).syncInProgress = s.syncInProgress := by
  unfold processOne
  cases net r with
  | none => rfl
  | some err =>
    dsimp only
    split <;> rfl

theorem processOneStates_syncInProgress (net : QOp → Option String) (now : Nat)
    (s : MgrState) (r : QOp) :
    ∀ t ∈ processOneStates net now s r, t.syncInProgress = s.syncInProgress := by
  intro t ht
  unfold processOneStates at ht
  cases hnet : net r with
  | none =>
    rw [hnet] at ht
    dsimp only at ht
    simp only [List.mem_singleton] at ht
    subst ht
    rfl
  | some err =>
    rw [hnet] at ht
    dsimp only at ht
    split at ht
    · simp only [List.mem_cons, List.not_mem_nil, or_false] at ht
      rcases ht with rfl | rfl <;> rfl
    · simp only [List.mem_singleton] at ht
      subst ht
      rfl

theorem drainFineTrace_syncInProgress (net : QOp → Option String) (now : Nat) :
    ∀ (l : List QOp) (s : MgrState),
      ∀ t ∈ drainFineTrace net now s l, t.syncInProgress = s.syncInProgress := by
  intro l
  induction l with
  | nil =>
    intro s t ht
    simp [drainFineTrace] at ht
  | cons r rest ih =>
    intro s t ht
    unfold drainFineTrace at ht
    rcases List.mem_append.1 ht with h1 | h2
    · exact processOneStates_syncInProgress net now s r t h1
    · rw [ih (processOne net now s r) t h2, processOne_syncInProgress]

theorem syncOfflineData_busy (net : QOp → Option String) (now : Nat)
    (s : MgrState) (h : s.syncInProgress = true) :
    syncOfflineData net now s = s := by
  unfold syncOfflineData
  rw [h]
  rfl

end IDB

end Fieldmax

/-- C2: a trigger arriving while `syncInProgress` is set performs no drain
work at all (the state is returned untouched), every durable state reachable
during a pass has `syncInProgress` set — so a second trigger at any of those
points is a no-op — and a pass started from Idle ends with
`syncInProgress = false` again, i.e. the orchestrator returns to Idle exactly
once per pass. -/
theorem C2_single_flight :
    ∀ (net netB : Fieldmax.QOp → Option String) (now nowB : Nat)
      (s : Fieldmax.IDB.MgrState),
      (s.syncInProgress = true → Fieldmax.IDB.syncOfflineData net now s = s) ∧
      (s.syncInProgress = false → s.isOnline = true →
        (∀ t ∈ Fieldmax.IDB.passMidStates net now s,
          t.syncInProgress = true ∧
          Fieldmax.IDB.syncOfflineData netB nowB t = t) ∧
        (Fieldmax.IDB.syncOfflineData net now s).syncInProgress = false) := by
  intro net netB now nowB s
  constructor
  · exact Fieldmax.IDB.syncOfflineData_busy net now s
  · intro h1 h2
    constructor
    · intro t ht
      have hflag : t.syncInProgress = true := by
        unfold Fieldmax.IDB.passMidStates at ht
        rcases List.mem_cons.1 ht with rfl | hmem
        · rfl
        · exact Fieldmax.IDB.drainFineTrace_syncInProgress net now _ _ t hmem
      exact ⟨hflag, Fieldmax.IDB.syncOfflineData_busy netB nowB t hflag⟩
    · unfold Fieldmax.IDB.syncOfflineData
      rw [h1, h2]
      rfl

/-- C2 witness: a trigger on an in-flight state is the identity, applied at
a concrete state. -/
theorem C2_witness :
    Fieldmax.IDB.syncOfflineData (fun _ => none) 0
        { requests := [], failed := [], syncInProgress := true, isOnline := true } =
      { requests := [], failed := [], syncInProgress := true, isOnline := true } :=
  (C2_single_flight (fun _ => none) (fun _ => none) 0 0
      { requests := [], failed := [], syncInProgress := true, isOnline := true }).1
    rfl

/-- C7: triggering a sync with an empty queue is a harmless no-op in both
cited implementations.  The service worker's `syncOfflineData` performs no
network call for any operation, leaves the queue store untouched and posts
`SYNC_STARTED` followed by `SYNC_COMPLETED`; the localStorage
`OfflineManager.syncOfflineData` returns with the state unchanged (and, being
total, raises no error). -/
theorem C7_empty_queue_sync :
    (∀ net : Fieldmax.QOp → Option String,
      Fieldmax.SW4.syncOfflineData net [] =
        { msgs := [Fieldmax.MsgType.syncStarted, Fieldmax.MsgType.syncCompleted]
          store := []
          calls := [] }) ∧
    (∀ (net : Fieldmax.LSM.LSReq → Bool) (s : Fieldmax.LSM.LSMgrState),
      s.offlineQueue = [] → Fieldmax.LSM.syncOfflineData net s = s) := by
  constructor
  · intro net
    rfl
  · intro net s h
    unfold Fieldmax.LSM.syncOfflineData
    rw [h]
    split <;> rfl

/-- C7 witness: the empty-queue no-op at a concrete online, idle state. -/
theorem C7_witness :
    Fieldmax.LSM.syncOfflineData (fun _ => true)
        { offlineQueue := [], storedQueue := [], syncInProgress := false,
          isOnline := true } =
      { offlineQueue := [], storedQueue := [], syncInProgress := false,
        isOnline := true } :=
  C7_empty_queue_sync.2 (fun _ => true) _ rfl

/-- C8: evaluation of the stored priority ordinal.  Because `getPriorityValue`
returns `priorities[priority] || 2` and the ordinal of `critical` is the
falsy value `0`, a critical enqueue is stored with priority 2 (the `normal`
ordinal), not 0; `high`, `normal` and `low` map to 1, 2 and 3 as the claim
says, and `queueRequest` stores exactly `getPriorityValue` of its priority
argument. -/
theorem C8_priority_mapping :
    Fieldmax.IDB.getPriorityValue "critical" = 2 ∧
    Fieldmax.IDB.getPriorityValue "high" = 1 ∧
    Fieldmax.IDB.getPriorityValue "normal" = 2 ∧
    Fieldmax.IDB.getPriorityValue "low" = 3 ∧
    ∀ (now sfx : Nat) (method url : String) (data : Option String) (p : String),
      (Fieldmax.IDB.queueRequest now sfx method url data p).priority =
        Fieldmax.IDB.getPriorityValue p :=
  ⟨rfl, rfl, rfl, rfl, fun _ _ _ _ _ _ => rfl⟩

/-- C9: receiving `SYNC_COMPLETED` makes the localStorage client controller
unconditionally replace its pending queue with the empty queue and persist
it, whatever the previous state held. -/
theorem C9_sync_completed_clears_queue :
    ∀ s : Fieldmax.LSM.LSMgrState,
      (Fieldmax.LSM.handleServiceWorkerMessage s
          Fieldmax.MsgType.syncCompleted).offlineQueue = [] ∧
      (Fieldmax.LSM.handleServiceWorkerMessage s
          Fieldmax.MsgType.syncCompleted).storedQueue = [] :=
  fun _ => ⟨rfl, rfl⟩

/-- C1 (amended): the client-side `getQueuedRequests` (and hence the snapshot
a drain pass of `syncOfflineData` processes, in exactly that order) returns
operations sorted primarily by ascending priority ordinal and secondarily by
ascending enqueue time, for every store whose ids carry their enqueue time;
the service worker's `getQueuedRequests`, by contrast, returns operations in
primary-key order only, i.e. ascending enqueue time with no priority
ordering. -/
theorem C1_listPending_order :
    (∀ (store : List Fieldmax.QOp) (limit : Nat),
      Fieldmax.TimeFaithful store →
      List.Pairwise Fieldmax.prioTimeLe
        (Fieldmax.IDB.getQueuedRequests store limit)) ∧
    (∀ store : List Fieldmax.QOp,
      Fieldmax.TimeFaithful store →
      List.Pairwise Fieldmax.timeLe (Fieldmax.SW4.getQueuedRequests store)) ∧
    (∀ s : Fieldmax.IDB.MgrState,
      Fieldmax.IDB.syncSnapshot s =
        Fieldmax.IDB.getQueuedRequests s.requests 50) := by
  refine ⟨?_, ?_, fun s => rfl⟩
  · intro store limit htf
    have hs : List.Pairwise Fieldmax.IDB.cursorLe
        (List.insertionSort Fieldmax.IDB.cursorLe store) :=
      List.sorted_insertionSort _ store
    have h1 : List.Pairwise Fieldmax.IDB.cursorLe
        (Fieldmax.IDB.getQueuedRequests store limit) :=
      List.Pairwise.sublist (List.take_sublist _ _) hs
    refine List.Pairwise.imp_of_mem ?_ h1
    intro a b ha hb hab
    unfold Fieldmax.IDB.getQueuedRequests at ha hb
    have ha' : a ∈ store :=
      (List.perm_insertionSort Fieldmax.IDB.cursorLe store).mem_iff.1
        (List.mem_of_mem_take ha)
    have hb' : b ∈ store :=
      (List.perm_insertionSort Fieldmax.IDB.cursorLe store).mem_iff.1
        (List.mem_of_mem_take hb)
    have hta := htf a ha'
    have htb := htf b hb'
    unfold Fieldmax.IDB.cursorLe Fieldmax.idLe Fieldmax.QOp.id at hab
    unfold Fieldmax.prioTimeLe
    dsimp only at hab
    omega
  · intro store htf
    have hs : List.Pairwise Fieldmax.SW4.keyLe
        (Fieldmax.SW4.getQueuedRequests store) :=
      List.sorted_insertionSort _ store
    refine List.Pairwise.imp_of_mem ?_ hs
    intro a b ha hb hab
    unfold Fieldmax.SW4.getQueuedRequests at ha hb
    have ha' : a ∈ store :=
      (List.perm_insertionSort Fieldmax.SW4.keyLe store).mem_iff.1 ha
    have hb' : b ∈ store :=
      (List.perm_insertionSort Fieldmax.SW4.keyLe store).mem_iff.1 hb
    have hta := htf a ha'
    have htb := htf b hb'
    unfold Fieldmax.SW4.keyLe Fieldmax.idLe Fieldmax.QOp.id at hab
    unfold Fieldmax.timeLe
    dsimp only at hab
    omega

/-- C1 witness: the priority-then-time ordering of the client-side listing
at a concrete two-element store enqueued low-priority first. -/
theorem C1_witness :
    List.Pairwise Fieldmax.prioTimeLe
      (Fieldmax.IDB.getQueuedRequests
        [{ idTime := 1, idSuffix := 0, method := "POST", url := "/api/low/",
           data := none, timestamp := 1, priority := 3, retries := 0,
           maxRetries := 3 },
         { idTime := 2, idSuffix := 0, method := "POST", url := "/api/crit/",
           data := none, timestamp := 2, priority := 0, retries := 0,
           maxRetries := 3 }] 50) :=
  C1_listPending_order.1 _ 50 (by unfold Fieldmax.TimeFaithful; decide)

/-- C1 counterexample to the claim as stated: the service worker's
`getQueuedRequests` lists an earlier-enqueued low-priority operation before a
later-enqueued critical one, so its listing is not ordered primarily by
ascending priority ordinal. -/
theorem C1_counterexample :
    ¬ List.Pairwise Fieldmax.prioTimeLe
      (Fieldmax.SW4.getQueuedRequests
        [{ idTime := 1, idSuffix := 0, method := "POST", url := "/api/low/",
           data := none, timestamp := 1, priority := 3, retries := 0,
           maxRetries := 3 },
         { idTime := 2, idSuffix := 0, method := "POST", url := "/api/crit/",
           data := none, timestamp := 2, priority := 0, retries := 0,
           maxRetries := 3 }]) := by
  decide

namespace Fieldmax

namespace IDB

theorem mem_removeFromQueue (q : List QOp) (i : OpId) (x : QOp) :
    x ∈ removeFromQueue q i ↔ x ∈ q ∧ x.id ≠ i := by
  unfold removeFromQueue
  simp [List.mem_filter]

theorem mem_processOne_of_ne (net : QOp → Option String) (now : Nat)
    (s : MgrState) (r : QOp) (x : QOp) (hx : x ∈ s.requests)
    (hne : x.id ≠ r.id) : x ∈ (processOne net now s r).requests := by
  unfold processOne
  cases net r with
  | none => exact (mem_removeFromQueue _ _ _).2 ⟨hx, hne⟩
  | some err =>
    dsimp only
    split
    · exact (mem_removeFromQueue _ _ _).2 ⟨hx, hne⟩
    · exact List.mem_map.2 ⟨x, hx, if_neg hne⟩

theorem mem_drainPass_of_ne (net : QOp → Option String) (now : Nat) :
    ∀ (l : List QOp) (s : MgrState) (x : QOp), x ∈ s.requests →
      (∀ y ∈ l, y.id ≠ x.id) → x ∈ (drainPass net now s l).requests := by
  intro l
  induction l with
  | nil =>
    intro s x hx _
    exact hx
  | cons r rest ih =>
    intro s x hx hl
    unfold drainPass
    refine ih (processOne net now s r) x ?_ ?_
    · exact mem_processOne_of_ne net now s r x hx
        (Ne.symm (hl r (List.mem_cons_self r rest)))
    · intro y hy
      exact hl y (List.mem_cons_of_mem r hy)

end IDB

end Fieldmax

/-- C10: the client-side listing never returns more than `limit` entries (50
for the snapshot a drain pass uses, since `syncOfflineData` calls
`getQueuedRequests` with its default), and any queued operation whose id is
not in that snapshot is still present, unchanged, in the queue after the
pass. -/
theorem C10_drain_bound :
    (∀ (store : List Fieldmax.QOp) (limit : Nat),
      (Fieldmax.IDB.getQueuedRequests store limit).length ≤ limit) ∧
    (∀ s : Fieldmax.IDB.MgrState, (Fieldmax.IDB.syncSnapshot s).length ≤ 50) ∧
    (∀ (net : Fieldmax.QOp → Option String) (now : Nat)
      (s : Fieldmax.IDB.MgrState) (x : Fieldmax.QOp),
      x ∈ s.requests →
      (∀ y ∈ Fieldmax.IDB.syncSnapshot s, y.id ≠ x.id) →
      x ∈ (Fieldmax.IDB.syncOfflineData net now s).requests) := by
  have hlen : ∀ (store : List Fieldmax.QOp) (limit : Nat),
      (Fieldmax.IDB.getQueuedRequests store limit).length ≤ limit := by
    intro store limit
    unfold Fieldmax.IDB.getQueuedRequests
    rw [List.length_take]
    exact min_le_left _ _
  refine ⟨hlen, fun s => hlen _ 50, ?_⟩
  intro net now s x hx hsnap
  unfold Fieldmax.IDB.syncOfflineData
  split
  · exact hx
  · exact Fieldmax.IDB.mem_drainPass_of_ne net now _ _ x hx hsnap

/-- C10 witness: with 51 equal-priority operations queued and every network
call failing, the operation enqueued last (outside the 50-element snapshot)
is still in the queue, untouched, after the pass. -/
theorem C10_witness :
    ({ idTime := 50, idSuffix := 0, method := "POST", url := "/a/",
       data := none, timestamp := 50, priority := 2, retries := 0,
       maxRetries := 3 } : Fieldmax.QOp) ∈
      (Fieldmax.IDB.syncOfflineData (fun _ => some "e") 0
        { requests := (List.range 51).map (fun n =>
            { idTime := n, idSuffix := 0, method := "POST", url := "/a/",
              data := none, timestamp := n, priority := 2, retries := 0,
              maxRetries := 3 })
          failed := []
          syncInProgress := false
          isOnline := true }).requests :=
  C10_drain_bound.2.2 (fun _ => some "e") 0 _ _ (by decide) (by decide)

namespace Fieldmax

theorem Rmon_refl (a : Option Nat) : Rmon a a := by
  constructor
  · exact fun h => h
  · intro n m hn hm
    rw [hn] at hm
    injection hm with h
    omega

theorem Rmon_trans {a b c : Option Nat} (h1 : Rmon a b) (h2 : Rmon b c) :
    Rmon a c := by
  constructor
  · intro ha
    exact h2.1 (h1.1 ha)
  · intro n m hn hm
    cases hb : b with
    | none =>
      rw [h2.1 hb] at hm
      cases hm
    | some k => exact le_trans (h1.2 n k hn hb) (h2.2 k m hb hm)

namespace IDB

theorem find?_removeFromQueue_self (q : List QOp) (i : OpId) :
    (removeFromQueue q i).find? (fun r => decide (r.id = i)) = none := by
  rw [List.find?_eq_none]
  intro x hx
  have hmem := (mem_removeFromQueue q i x).1 hx
  simp [hmem.2]

theorem removeFromQueue_cons (x : QOp) (t : List QOp) (i : OpId) :
    removeFromQueue (x :: t) i =
      if x.id = i then removeFromQueue t i else x :: removeFromQueue t i := by
  unfold removeFromQueue
  rw [List.filter_cons]
  by_cases h : x.id = i
  · rw [if_neg (by simp [h]), if_pos h]
  · rw [if_pos (by simp [h]), if_neg h]

theorem find?_removeFromQueue_ne (q : List QOp) (i j : OpId) (h : j ≠ i) :
    (removeFromQueue q i).find? (fun r => decide (r.id = j)) =
      q.find? (fun r => decide (r.id = j)) := by
  induction q with
  | nil => rfl
  | cons x t ih =>
    rw [removeFromQueue_cons]
    by_cases hxi : x.id = i
    · have hxj : ¬x.id = j := by rw [hxi]; exact fun hh => h hh.symm
      rw [if_pos hxi, ih, List.find?_cons_of_neg t (by simp [hxj])]
    · rw [if_neg hxi]
      by_cases hxj : x.id = j
      · rw [@List.find?_cons_of_pos QOp (fun r => decide (r.id = j)) x
            (removeFromQueue t i) (by simp [hxj]),
          @List.find?_cons_of_pos QOp (fun r => decide (r.id = j)) x t
            (by simp [hxj])]
      · rw [List.find?_cons_of_neg _ (by simp [hxj]),
          List.find?_cons_of_neg _ (by simp [hxj]), ih]

theorem any_removeFromQueue (q : List QOp) (i : OpId) :
    (removeFromQueue q i).any (fun r => decide (r.id = i)) = false := by
  rw [List.any_eq_false]
  intro x hx
  have hmem := (mem_removeFromQueue q i x).1 hx
  simp [hmem.2]

theorem any_id_sublist {q q' : List QOp} (h : q'.Sublist q) (i : OpId)
    (hfalse : q.any (fun r => decide (r.id = i)) = false) :
    q'.any (fun r => decide (r.id = i)) = false := by
  rw [List.any_eq_false] at hfalse ⊢
  intro x hx
  exact hfalse x (h.subset hx)

theorem updateRequest_cons (x : QOp) (t : List QOp) (r' : QOp) :
    updateRequest (x :: t) r' =
      (if x.id = r'.id then r' else x) :: updateRequest t r' := rfl

theorem find?_updateRequest (q : List QOp) (r' : QOp) (j : OpId)
    (hj : r'.id = j) :
    (updateRequest q r').find? (fun x => decide (x.id = j)) =
      (q.find? (fun x => decide (x.id = j))).map (fun _ => r') := by
  induction q with
  | nil => rfl
  | cons x t ih =>
    rw [updateRequest_cons]
    by_cases hx : x.id = r'.id
    · have hxj : x.id = j := hx.trans hj
      rw [if_pos hx,
        @List.find?_cons_of_pos QOp (fun y => decide (y.id = j)) r'
          (updateRequest t r') (by simp [hj]),
        @List.find?_cons_of_pos QOp (fun y => decide (y.id = j)) x t
          (by simp [hxj])]
      rfl
    · have hxj : ¬x.id = j := fun hh => hx (hh.trans hj.symm)
      rw [if_neg hx, List.find?_cons_of_neg _ (by simp [hxj]),
        List.find?_cons_of_neg _ (by simp [hxj]), ih]

theorem find?_updateRequest_ne (q : List QOp) (r' : QOp) (j : OpId)
    (h : j ≠ r'.id) :
    (updateRequest q r').find? (fun x => decide (x.id = j)) =
      q.find? (fun x => decide (x.id = j)) := by
  induction q with
  | nil => rfl
  | cons x t ih =>
    rw [updateRequest_cons]
    by_cases hx : x.id = r'.id
    · have h1 : ¬r'.id = j := fun hh => h hh.symm
      have h2 : ¬x.id = j := by rw [hx]; exact h1
      rw [if_pos hx, List.find?_cons_of_neg _ (by simp [h1]),
        List.find?_cons_of_neg _ (by simp [h2]), ih]
    · by_cases hxj : x.id = j
      · rw [if_neg hx,
          @List.find?_cons_of_pos QOp (fun y => decide (y.id = j)) x
            (updateRequest t r') (by simp [hxj]),
          @List.find?_cons_of_pos QOp (fun y => decide (y.id = j)) x t
            (by simp [hxj])]
      · rw [if_neg hx, List.find?_cons_of_neg _ (by simp [hxj]),
          List.find?_cons_of_neg _ (by simp [hxj]), ih]

theorem map_id_updateRequest (q : List QOp) (r' : QOp) :
    (updateRequest q r').map QOp.id = q.map QOp.id := by
  induction q with
  | nil => rfl
  | cons x t ih =>
    unfold updateRequest at *
    simp only [List.map_cons]
    rw [ih]
    by_cases h : x.id = r'.id
    · rw [if_pos h, ← h]
    · rw [if_neg h]

theorem any_id_updateRequest (q : List QOp) (r' : QOp) (i : OpId) :
    (updateRequest q r').any (fun x => decide (x.id = i)) =
      q.any (fun x => decide (x.id = i)) := by
  induction q with
  | nil => rfl
  | cons x t ih =>
    unfold updateRequest at *
    simp only [List.map_cons, List.any_cons]
    rw [ih]
    by_cases h : x.id = r'.id
    · rw [if_pos h, ← h]
    · rw [if_neg h]

theorem find?_moveToFailed_ne (f : List FailedRec) (r' : QOp) (err : String)
    (now : Nat) (j : OpId) (h : j ≠ r'.id) :
    (moveToFailed f r' err now).find? (fun g => decide (g.toQOp.id = j)) =
      f.find? (fun g => decide (g.toQOp.id = j)) := by
  unfold moveToFailed
  rw [List.find?_append]
  have hsingle : List.find? (fun g : FailedRec => decide (g.toQOp.id = j))
      [({ toQOp := r', error := err, failedAt := now } : FailedRec)] = none := by
    have h1 : ¬r'.id = j := fun hh => h hh.symm
    rw [List.find?_cons_of_neg _ (by simp [h1])]
    rfl
  rw [hsingle, Option.or_none]

theorem find?_moveToFailed_self (f : List FailedRec) (r' : QOp) (err : String)
    (now : Nat) (j : OpId) (hj : r'.id = j)
    (hnone : f.find? (fun g => decide (g.toQOp.id = j)) = none) :
    (moveToFailed f r' err now).find? (fun g => decide (g.toQOp.id = j)) =
      some { toQOp := r', error := err, failedAt := now } := by
  unfold moveToFailed
  rw [List.find?_append, hnone]
  simp [List.find?_cons, hj]

theorem find?_eq_self_of_nodup (q : List QOp) (hnd : (q.map QOp.id).Nodup)
    (r : QOp) (hr : r ∈ q) :
    q.find? (fun x => decide (x.id = r.id)) = some r := by
  induction q with
  | nil => cases hr
  | cons x t ih =>
    have hnd' : (∀ y ∈ t, ¬QOp.id y = QOp.id x) ∧ (t.map QOp.id).Nodup := by
      simpa using hnd
    rcases List.mem_cons.1 hr with rfl | hrt
    · exact List.find?_cons_of_pos _ (by simp)
    · by_cases hx : x.id = r.id
      · exact absurd hx.symm (hnd'.1 r hrt)
      · rw [List.find?_cons_of_neg _ (by simp [hx])]
        exact ih hnd'.2 hrt

theorem find?_failed_none_of_WF (s : MgrState) (hWF : WF s) (r : QOp)
    (hr : r ∈ s.requests) :
    s.failed.find? (fun g => decide (g.toQOp.id = r.id)) = none := by
  rw [List.find?_eq_none]
  intro g hg hP
  have hgid : g.toQOp.id = r.id := of_decide_eq_true hP
  have hq : inQueueB s g.toQOp.id = false := hWF.2.2 g hg
  have htrue : inQueueB s g.toQOp.id = true :=
    List.any_eq_true.2 ⟨r, hr, by simp [hgid]⟩
  rw [hq] at htrue
  cases htrue

end IDB

end Fieldmax

namespace Fieldmax

namespace IDB

theorem requests_find?_processOne_ne (net : QOp → Option String) (now : Nat)
    (s : MgrState) (r : QOp) (i : OpId) (hne : i ≠ r.id) :
    (processOne net now s r).requests.find? (fun x => decide (x.id = i)) =
      s.requests.find? (fun x => decide (x.id = i)) := by
  unfold processOne
  cases hnet : net r with
  | none => exact find?_removeFromQueue_ne _ _ _ hne
  | some err =>
    dsimp only
    split
    · exact find?_removeFromQueue_ne _ _ _ hne
    · exact find?_updateRequest_ne _ _ _ hne

theorem failed_find?_processOne_ne (net : QOp → Option String) (now : Nat)
    (s : MgrState) (r : QOp) (i : OpId) (hne : i ≠ r.id) :
    (processOne net now s r).failed.find? (fun g => decide (g.toQOp.id = i)) =
      s.failed.find? (fun g => decide (g.toQOp.id = i)) := by
  unfold processOne
  cases hnet : net r with
  | none => rfl
  | some err =>
    dsimp only
    split
    · exact find?_moveToFailed_ne _ _ _ _ _ hne
    · rfl

theorem retriesAt_processOne_ne (net : QOp → Option String) (now : Nat)
    (s : MgrState) (r : QOp) (i : OpId) (hne : i ≠ r.id) :
    retriesAt (processOne net now s r) i = retriesAt s i := by
  unfold retriesAt
  rw [requests_find?_processOne_ne net now s r i hne,
    failed_find?_processOne_ne net now s r i hne]

theorem retriesAt_eq_of_mem (s : MgrState) (hWF : WF s) (r : QOp)
    (hr : r ∈ s.requests) : retriesAt s r.id = some r.retries := by
  unfold retriesAt
  rw [find?_eq_self_of_nodup s.requests hWF.1 r hr]

theorem retriesAt_processOne_self (net : QOp → Option String) (now : Nat)
    (s : MgrState) (r : QOp) (hWF : WF s) (hr : r ∈ s.requests) :
    Rmon (retriesAt s r.id) (retriesAt (processOne net now s r) r.id) := by
  have ha : retriesAt s r.id = some r.retries := retriesAt_eq_of_mem s hWF r hr
  have hf : s.failed.find? (fun g => decide (g.toQOp.id = r.id)) = none :=
    find?_failed_none_of_WF s hWF r hr
  constructor
  · intro h
    rw [ha] at h
    cases h
  · intro n m hn hm
    rw [ha] at hn
    injection hn with hn'
    unfold processOne at hm
    cases hnet : net r with
    | none =>
      rw [hnet] at hm
      unfold retriesAt at hm
      dsimp only at hm
      rw [find?_removeFromQueue_self, hf] at hm
      cases hm
    | some err =>
      rw [hnet] at hm
      dsimp only at hm
      split at hm
      · unfold retriesAt at hm
        dsimp only at hm
        rw [find?_removeFromQueue_self,
          find?_moveToFailed_self s.failed { r with retries := r.retries + 1 }
            err now r.id rfl hf] at hm
        dsimp only [Option.map] at hm
        injection hm with hm'
        have hm2 : r.retries + 1 = m := hm'
        omega
      · unfold retriesAt at hm
        dsimp only at hm
        rw [find?_updateRequest s.requests { r with retries := r.retries + 1 }
            r.id rfl,
          find?_eq_self_of_nodup s.requests hWF.1 r hr] at hm
        dsimp only [Option.map] at hm
        injection hm with hm'
        have hm2 : r.retries + 1 = m := hm'
        omega

theorem WF_processOne (net : QOp → Option String) (now : Nat) (s : MgrState)
    (hWF : WF s) (r : QOp) (hr : r ∈ s.requests) :
    WF (processOne net now s r) := by
  obtain ⟨hndq, hndf, hdisj⟩ := hWF
  have hrid_not_failed : ∀ g ∈ s.failed, ¬g.toQOp.id = r.id := by
    intro g hg hh
    have h1 := hdisj g hg
    have h2 : inQueueB s g.toQOp.id = true :=
      List.any_eq_true.2 ⟨r, hr, by simp [hh]⟩
    rw [h1] at h2
    cases h2
  unfold processOne
  cases hnet : net r with
  | none =>
    refine ⟨?_, hndf, ?_⟩
    · exact List.Nodup.sublist (List.Sublist.map QOp.id (List.filter_sublist _))
        hndq
    · intro g hg
      exact any_id_sublist (List.filter_sublist _) _ (hdisj g hg)
  | some err =>
    dsimp only
    split
    · refine ⟨?_, ?_, ?_⟩
      · exact List.Nodup.sublist
          (List.Sublist.map QOp.id (List.filter_sublist _)) hndq
      · unfold moveToFailed
        rw [List.map_append, List.nodup_append]
        refine ⟨hndf, List.nodup_singleton _, ?_⟩
        intro a ha hb
        rcases List.mem_map.1 ha with ⟨g, hg, rfl⟩
        simp only [List.map_cons, List.map_nil, List.mem_singleton] at hb
        exact hrid_not_failed g hg hb
      · intro g hg
        unfold moveToFailed at hg
        rcases List.mem_append.1 hg with h1 | h2
        · exact any_id_sublist (List.filter_sublist _) _ (hdisj g h1)
        · rcases List.mem_singleton.1 h2 with rfl
          exact any_removeFromQueue s.requests r.id
    · refine ⟨?_, hndf, ?_⟩
      · dsimp only
        rw [map_id_updateRequest]
        exact hndq
      · intro g hg
        dsimp only at hg
        unfold inQueueB
        dsimp only
        rw [any_id_updateRequest]
        exact hdisj g hg

theorem QInv_processOne (net : QOp → Option String) (now : Nat) (s : MgrState)
    (r : QOp) (hQ : QInv s) : QInv (processOne net now s r) := by
  unfold processOne
  cases hnet : net r with
  | none =>
    intro x hx
    exact hQ x ((mem_removeFromQueue _ _ _).1 hx).1
  | some err =>
    dsimp only
    split
    · intro x hx
      exact hQ x ((mem_removeFromQueue _ _ _).1 hx).1
    · rename_i hguard
      intro x hx
      rcases List.mem_map.1 hx with ⟨y, hy, rfl⟩
      by_cases hyy : y.id = ({ r with retries := r.retries + 1 } : QOp).id
      · rw [if_pos hyy]
        have hguard' : ¬r.maxRetries ≤ r.retries + 1 := hguard
        dsimp only
        omega
      · rw [if_neg hyy]
        exact hQ y hy

theorem FInv_processOne (net : QOp → Option String) (now : Nat) (s : MgrState)
    (r : QOp) (hF : FInv s) (hQ : QInv s) (hr : r ∈ s.requests) :
    FInv (processOne net now s r) := by
  unfold processOne
  cases hnet : net r with
  | none => exact hF
  | some err =>
    dsimp only
    split
    · rename_i hguard
      intro g hg
      unfold moveToFailed at hg
      rcases List.mem_append.1 hg with h1 | h2
      · exact hF g h1
      · rcases List.mem_singleton.1 h2 with rfl
        have hlt := hQ r hr
        have hguard' : r.maxRetries ≤ r.retries + 1 := hguard
        dsimp only
        omega
    · exact hF

end IDB

end Fieldmax

namespace Fieldmax

namespace IDB

theorem drainPass_master (net : QOp → Option String) (now : Nat) :
    ∀ (l : List QOp) (s : MgrState), WF s → QInv s →
      (∀ x ∈ l, x ∈ s.requests) → (l.map QOp.id).Nodup →
      (WF (drainPass net now s l) ∧ QInv (drainPass net now s l)) ∧
      (FInv s → FInv (drainPass net now s l)) ∧
      (∀ i, Rmon (retriesAt s i) (retriesAt (drainPass net now s l) i)) := by
  intro l
  induction l with
  | nil =>
    intro s hWF hQ _ _
    exact ⟨⟨hWF, hQ⟩, fun h => h, fun i => Rmon_refl _⟩
  | cons r rest ih =>
    intro s hWF hQ hsub hnd
    have hr : r ∈ s.requests := hsub r (List.mem_cons_self r rest)
    have hnd' : (∀ y ∈ rest, ¬QOp.id y = QOp.id r) ∧
        (rest.map QOp.id).Nodup := by simpa using hnd
    have hWF' : WF (processOne net now s r) := WF_processOne net now s hWF r hr
    have hQ' : QInv (processOne net now s r) := QInv_processOne net now s r hQ
    have hsub' : ∀ x ∈ rest, x ∈ (processOne net now s r).requests := by
      intro x hx
      exact mem_processOne_of_ne net now s r x
        (hsub x (List.mem_cons_of_mem r hx)) (hnd'.1 x hx)
    obtain ⟨⟨hWFf, hQf⟩, hFf, hmon⟩ :=
      ih (processOne net now s r) hWF' hQ' hsub' hnd'.2
    refine ⟨⟨hWFf, hQf⟩, ?_, ?_⟩
    · intro hF
      exact hFf (FInv_processOne net now s r hF hQ hr)
    · intro i
      refine Rmon_trans ?_ (hmon i)
      by_cases hi : i = r.id
      · subst hi
        exact retriesAt_processOne_self net now s r hWF hr
      · rw [retriesAt_processOne_ne net now s r i hi]
        exact Rmon_refl _

theorem syncSnapshot_subset (s : MgrState) :
    ∀ x ∈ syncSnapshot s, x ∈ s.requests := by
  intro x hx
  unfold syncSnapshot getQueuedRequests at hx
  exact (List.perm_insertionSort cursorLe s.requests).mem_iff.1
    (List.mem_of_mem_take hx)

theorem syncSnapshot_nodup (s : MgrState)
    (h : (s.requests.map QOp.id).Nodup) :
    ((syncSnapshot s).map QOp.id).Nodup := by
  unfold syncSnapshot getQueuedRequests
  have hperm : ((List.insertionSort cursorLe s.requests).map QOp.id).Perm
      (s.requests.map QOp.id) :=
    (List.perm_insertionSort cursorLe s.requests).map QOp.id
  have hnd : ((List.insertionSort cursorLe s.requests).map QOp.id).Nodup :=
    h.perm hperm.symm
  rw [List.map_take]
  exact List.Nodup.sublist (List.take_sublist _ _) hnd

end IDB

end Fieldmax

/-- C3: a fresh operation enters the queue with `retries = 0` and
`maxRetries = 3`; under the store invariants (unique ids per store, disjoint
stores, attempts still below the limit for queued records) a drain pass
preserves those invariants, keeps every failed record's attempt counter
exactly at its limit, and never decreases the attempt counter recorded for
any id — and because the invariants are re-established after each pass, the
monotonicity chains across successive drain passes. -/
theorem C3_attempts_monotone :
    (∀ (now sfx : Nat) (method url : String) (data : Option String)
      (p : String),
      (Fieldmax.IDB.queueRequest now sfx method url data p).retries = 0 ∧
      (Fieldmax.IDB.queueRequest now sfx method url data p).maxRetries = 3) ∧
    (∀ (net : Fieldmax.QOp → Option String) (now : Nat)
      (s : Fieldmax.IDB.MgrState), Fieldmax.IDB.WF s → Fieldmax.IDB.QInv s →
      (Fieldmax.IDB.WF (Fieldmax.IDB.syncOfflineData net now s) ∧
        Fieldmax.IDB.QInv (Fieldmax.IDB.syncOfflineData net now s)) ∧
      (Fieldmax.IDB.FInv s →
        Fieldmax.IDB.FInv (Fieldmax.IDB.syncOfflineData net now s)) ∧
      (∀ i n m, Fieldmax.IDB.retriesAt s i = some n →
        Fieldmax.IDB.retriesAt (Fieldmax.IDB.syncOfflineData net now s) i =
          some m → n ≤ m)) := by
  constructor
  · intro now sfx method url data p
    exact ⟨rfl, rfl⟩
  · intro net now s hWF hQ
    unfold Fieldmax.IDB.syncOfflineData
    split
    · refine ⟨⟨hWF, hQ⟩, fun h => h, ?_⟩
      intro i n m hn hm
      rw [hn] at hm
      injection hm with h
      omega
    · have hWF1 : Fieldmax.IDB.WF { s with syncInProgress := true } := hWF
      have hQ1 : Fieldmax.IDB.QInv { s with syncInProgress := true } := hQ
      obtain ⟨⟨hWFf, hQf⟩, hFf, hmon⟩ :=
        Fieldmax.IDB.drainPass_master net now
          (Fieldmax.IDB.syncSnapshot { s with syncInProgress := true })
          { s with syncInProgress := true } hWF1 hQ1
          (Fieldmax.IDB.syncSnapshot_subset _)
          (Fieldmax.IDB.syncSnapshot_nodup _ hWF.1)
      refine ⟨⟨hWFf, hQf⟩, ?_, ?_⟩
      · intro hF
        exact hFf hF
      · intro i n m hn hm
        exact (hmon i).2 n m hn hm

/-- C3 witness: a pass over a single operation at its penultimate attempt
(retries 2 of 3) with a failing network leaves the failed store satisfying
the attempts-equal-limit invariant. -/
theorem C3_witness :
    Fieldmax.IDB.FInv
      (Fieldmax.IDB.syncOfflineData (fun _ => some "e") 9
        { requests := [{ idTime := 5, idSuffix := 7, method := "POST",
                           url := "/api/x/", data := none, timestamp := 5,
                           priority := 2, retries := 2, maxRetries := 3 }]
          failed := []
          syncInProgress := false
          isOnline := true }) :=
  ((C3_attempts_monotone.2 (fun _ => some "e") 9 _
      (by unfold Fieldmax.IDB.WF; decide)
      (by unfold Fieldmax.IDB.QInv; decide)).2.1
    (by unfold Fieldmax.IDB.FInv; decide))

/-- C4 counterexample to the claim as stated: starting a pass from an online
idle state holding one operation at its penultimate attempt, with the
network failing, one of the durable states reached inside the pass (after
the `moveToFailed` write and before the `removeFromQueue` delete) has the
operation's id present in the active queue and in the failed store at
once. -/
theorem C4_counterexample :
    (Fieldmax.IDB.passMidStates (fun _ => some "network error") 9
        { requests := [{ idTime := 5, idSuffix := 7, method := "POST",
                           url := "/api/x/", data := none, timestamp := 5,
                           priority := 2, retries := 2, maxRetries := 3 }]
          failed := []
          syncInProgress := false
          isOnline := true }).any
      (fun t => Fieldmax.IDB.inQueueB t (5, 7) &&
        Fieldmax.IDB.inFailedB t (5, 7)) = true := by
  decide

/-- C4 (amended): for an operation resident in the queue only, each drain
iteration ends with its id in exactly one store — removed from both only on
confirmed success, in the queue alone after a retryable failure, in the
failed store alone after terminal migration — and while a failing iteration
is in flight the id is never in neither store; but during terminal
migration, between the failed-store insert and the queue delete, the id is
transiently present in both stores, as the counterexample exhibits. -/
theorem C4_exactly_one :
    ∀ (net : Fieldmax.QOp → Option String) (now : Nat)
      (s : Fieldmax.IDB.MgrState) (r : Fieldmax.QOp),
      Fieldmax.IDB.inQueueB s r.id = true →
      Fieldmax.IDB.inFailedB s r.id = false →
      ((net r = none →
        Fieldmax.IDB.inQueueB (Fieldmax.IDB.processOne net now s r) r.id =
          false ∧
        Fieldmax.IDB.inFailedB (Fieldmax.IDB.processOne net now s r) r.id =
          false) ∧
       (∀ err, net r = some err →
        Fieldmax.IDB.inQueueB (Fieldmax.IDB.processOne net now s r) r.id ≠
          Fieldmax.IDB.inFailedB (Fieldmax.IDB.processOne net now s r) r.id) ∧
       (∀ err, net r = some err →
        ∀ t ∈ Fieldmax.IDB.processOneStates net now s r,
          Fieldmax.IDB.inQueueB t r.id = true ∨
          Fieldmax.IDB.inFailedB t r.id = true)) := by
  intro net now s r hq hf
  refine ⟨?_, ?_, ?_⟩
  · intro hnet
    unfold Fieldmax.IDB.processOne
    rw [hnet]
    exact ⟨Fieldmax.IDB.any_removeFromQueue s.requests r.id, hf⟩
  · intro err hnet
    unfold Fieldmax.IDB.processOne
    rw [hnet]
    dsimp only
    split
    · have h1 : (Fieldmax.IDB.removeFromQueue s.requests r.id).any
          (fun x => decide (x.id = r.id)) = false :=
        Fieldmax.IDB.any_removeFromQueue s.requests r.id
      have h2 : (Fieldmax.IDB.moveToFailed s.failed
          { r with retries := r.retries + 1 } err now).any
          (fun g => decide (g.toQOp.id = r.id)) = true := by
        unfold Fieldmax.IDB.moveToFailed
        refine List.any_eq_true.2
          ⟨_, List.mem_append_right _ (List.mem_singleton.2 rfl), ?_⟩
        exact decide_eq_true rfl
      show (Fieldmax.IDB.removeFromQueue s.requests r.id).any
          (fun x => decide (x.id = r.id)) ≠
        (Fieldmax.IDB.moveToFailed s.failed
          { r with retries := r.retries + 1 } err now).any
          (fun g => decide (g.toQOp.id = r.id))
      rw [h1, h2]
      decide
    · have h1 : (Fieldmax.IDB.updateRequest s.requests
          { r with retries := r.retries + 1 }).any
          (fun x => decide (x.id = r.id)) = true := by
        rw [Fieldmax.IDB.any_id_updateRequest]
        exact hq
      have hf' : s.failed.any (fun g => decide (g.toQOp.id = r.id)) = false :=
        hf
      show (Fieldmax.IDB.updateRequest s.requests
          { r with retries := r.retries + 1 }).any
          (fun x => decide (x.id = r.id)) ≠
        s.failed.any (fun g => decide (g.toQOp.id = r.id))
      rw [h1, hf']
      decide
  · intro err hnet t ht
    unfold Fieldmax.IDB.processOneStates at ht
    rw [hnet] at ht
    dsimp only at ht
    split at ht
    · simp only [List.mem_cons, List.not_mem_nil, or_false] at ht
      rcases ht with rfl | rfl
      · exact Or.inl hq
      · refine Or.inr ?_
        show (Fieldmax.IDB.moveToFailed s.failed
            { r with retries := r.retries + 1 } err now).any
            (fun g => decide (g.toQOp.id = r.id)) = true
        unfold Fieldmax.IDB.moveToFailed
        refine List.any_eq_true.2
          ⟨_, List.mem_append_right _ (List.mem_singleton.2 rfl), ?_⟩
        exact decide_eq_true rfl
    · simp only [List.mem_singleton] at ht
      subst ht
      refine Or.inl ?_
      show (Fieldmax.IDB.updateRequest s.requests
          { r with retries := r.retries + 1 }).any
          (fun x => decide (x.id = r.id)) = true
      rw [Fieldmax.IDB.any_id_updateRequest]
      exact hq

/-- C4 witness: a retryable failure leaves the operation's id in exactly one
store (queue yes, failed no) at a concrete state. -/
theorem C4_witness :
    Fieldmax.IDB.inQueueB
        (Fieldmax.IDB.processOne (fun _ => some "e") 0
          { requests := [{ idTime := 5, idSuffix := 7, method := "POST",
                             url := "/api/x/", data := none, timestamp := 5,
                             priority := 2, retries := 0, maxRetries := 3 }]
            failed := []
            syncInProgress := true
            isOnline := true }
          { idTime := 5, idSuffix := 7, method := "POST", url := "/api/x/",
            data := none, timestamp := 5, priority := 2, retries := 0,
            maxRetries := 3 }) (5, 7) ≠
      Fieldmax.IDB.inFailedB
        (Fieldmax.IDB.processOne (fun _ => some "e") 0
          { requests := [{ idTime := 5, idSuffix := 7, method := "POST",
                             url := "/api/x/", data := none, timestamp := 5,
                             priority := 2, retries := 0, maxRetries := 3 }]
            failed := []
            syncInProgress := true
            isOnline := true }
          { idTime := 5, idSuffix := 7, method := "POST", url := "/api/x/",
            data := none, timestamp := 5, priority := 2, retries := 0,
            maxRetries := 3 }) (5, 7) :=
  ((C4_exactly_one (fun _ => some "e") 0 _ _ (by decide) (by decide)).2.1
    "e" rfl)
